import Mathlib

/-!
Shallow embedding of the `rasn`/`rx509` DER decoder and X.509 parser
(Rust sources under `src/`), together with theorems settling the
specification claims about it.

Bytes are modelled as `Nat` (with `< 256` hypotheses where a theorem
depends on byte range); borrowed byte windows are `List Nat`; fallible
code returns `Except ASNError`; `&mut Parser` methods become explicit
state passing on the reader window.
-/

deriving instance DecidableEq for Except

namespace Rasn

/-- The four ASN.1 tag classes (src/rasn/src/types.rs, `TagClass`). -/
inductive TagClass
  | Universal
  | Application
  | ContextSpecific
  | Private
deriving DecidableEq

/-- Primitive / Constructed bit (src/rasn/src/types.rs, `PC`). -/
inductive PC
  | Primitive
  | Constructed
deriving DecidableEq

/-- Decoded identifier octet (src/rasn/src/types.rs, `Identifier`).
`cls` stands for the Rust field `class` (a Lean keyword). -/
structure Identifier where
  cls : TagClass
  pc : PC
  tag : Nat
deriving DecidableEq

/-- `Identifier::from(byte)` (src/rasn/src/types.rs lines 39-56):
top two bits select the class, bit 5 the P/C flag, low five bits the tag. -/
def Identifier.fromByte (b : Nat) : Identifier :=
  let cls :=
    match b &&& 0xC0 with
    | 0x00 => TagClass.Universal
    | 0x40 => TagClass.Application
    | 0x80 => TagClass.ContextSpecific
    | _ => TagClass.Private
  let pc := if b &&& 0x20 ≠ 0 then PC.Constructed else PC.Primitive
  { cls := cls, pc := pc, tag := b &&& 0x1F }

/-- Integer contents kept as raw bytes (src/rasn/src/types.rs, `ASNInteger`). -/
structure ASNInteger where
  bytes : List Nat
deriving DecidableEq

/-- `ASNInteger::as_i32` (src/rasn/src/types.rs lines 59-79 and
src/rx509/src/der/types.rs lines 55-75): the guard is
`VALID_I32_LENGTHS = 1usize..4usize`, a half-open range, so it accepts
lengths 1, 2 and 3 only; the accumulator loop `acc <<= 8; acc |= byte`
zero-extends (for at most 3 bytes the i32 arithmetic never overflows, so
plain `Nat` arithmetic coincides with the source's `i32`). -/
def ASNInteger.as_i32 (i : ASNInteger) : Option Int :=
  if 1 ≤ i.bytes.length ∧ i.bytes.length < 4 then
    some (Int.ofNat (i.bytes.foldl (fun acc b => acc * 256 + b) 0))
  else
    none

/-- Bit string payload (src/rasn/src/types.rs, `ASNBitString`). -/
structure ASNBitString where
  unused_bits : Nat
  bytes : List Nat
deriving DecidableEq

/-- `ASNBitString::size` computes `self.bytes.len() * 8 - self.unused_bits`
in `usize` arithmetic (src/rasn/src/types.rs lines 121-123). We model the
release-mode wrap-around value modulo 2^64; when `unused_bits ≤ 8·len`
this equals the plain difference. -/
def ASNBitString.size (bs : ASNBitString) : Nat :=
  (bs.bytes.length * 8 + 2 ^ 64 - bs.unused_bits) % 2 ^ 64

/-- One step of `ASNBitStringIterator::next` (src/rasn/src/types.rs lines
144-160): bit `i` is `bytes[i / 8] << (i % 8) & 0x80 != 0`. On `Nat`,
`&&& 0x80` looks only at bit 7, which agrees with the `u8` shift for
`i % 8 ≤ 7`. Out-of-range byte indexes read 0 here; in the source they
panic (see the safety claim). -/
def ASNBitString.bitAt (bs : ASNBitString) (i : Nat) : Bool :=
  ((bs.bytes.getD (i / 8) 0) <<< (i % 8)) &&& 0x80 ≠ 0

/-- The sequence of bits yielded by `ASNBitStringIterator` for a bit
string whose `size` does not underflow. -/
def ASNBitString.bits (bs : ASNBitString) : List Bool :=
  (List.range bs.size).map bs.bitAt

/-- Explicitly tagged value (src/rasn/src/types.rs, `ASNExplicitTag`). -/
structure ASNExplicitTag where
  value : Nat
  contents : List Nat
deriving DecidableEq

/-- Object identifier arcs (src/rasn/src/types.rs, `ASNObjectIdentifier`). -/
structure ASNObjectIdentifier where
  items : List Nat
deriving DecidableEq

def ASNObjectIdentifier.values (o : ASNObjectIdentifier) : List Nat := o.items

/-- UTCTime. The source stores a `chrono::DateTime<FixedOffset>`; the
claims never inspect the instant, so we retain the accepted contents
bytes. -/
structure UtcTime where
  bytes : List Nat
deriving DecidableEq

/-- Companion enum of variant names (src/rasn/src/types.rs, `ASNTypeId`). -/
inductive ASNTypeId
  | Boolean
  | Sequence
  | Set
  | Integer
  | PrintableString
  | IA5String
  | UTF8String
  | Null
  | UTCTime
  | BitString
  | OctetString
  | ObjectIdentifier
  | ExplicitTag
deriving DecidableEq

/-- The typed value universe (src/rasn/src/types.rs, `ASNType`). String
variants carry their (UTF-8 validated) bytes. -/
inductive ASNType
  | Boolean (value : Bool)
  | Sequence (value : List Nat)
  | Set (value : List Nat)
  | Integer (value : ASNInteger)
  | PrintableString (value : List Nat)
  | IA5String (value : List Nat)
  | UTF8String (value : List Nat)
  | Null
  | UTCTime (value : UtcTime)
  | BitString (value : ASNBitString)
  | OctetString (value : List Nat)
  | ObjectIdentifier (value : ASNObjectIdentifier)
  | ExplicitTag (value : ASNExplicitTag)
deriving DecidableEq

/-- `ASNType::get_id` (src/rasn/src/types.rs lines 538-556). -/
def ASNType.get_id : ASNType → ASNTypeId
  | .Boolean _ => .Boolean
  | .Sequence _ => .Sequence
  | .Set _ => .Set
  | .Integer _ => .Integer
  | .PrintableString _ => .PrintableString
  | .IA5String _ => .IA5String
  | .UTF8String _ => .UTF8String
  | .Null => .Null
  | .UTCTime _ => .UTCTime
  | .BitString _ => .BitString
  | .OctetString _ => .OctetString
  | .ObjectIdentifier _ => .ObjectIdentifier
  | .ExplicitTag _ => .ExplicitTag

/-- Error taxonomy (src/rasn/src/types.rs, `ASNError`). External payloads
(`Utf8Error`, chrono's `ParseError`) are dropped. -/
inductive ASNError
  | BadBooleanLength (len : Nat)
  | BadBooleanValue (value : Nat)
  | EndOfStream
  | ZeroLengthInteger
  | NullWithNonEmptyContents (len : Nat)
  | UnsupportedId (id : Identifier)
  | UnsupportedIndefiniteLength
  | ReservedLengthValue
  | UnsupportedLengthByteCount (count : Nat)
  | BadLengthEncoding (value : Nat)
  | BadOidLength
  | BadUTF8
  | BadUTCTime
  | BitStringUnusedBitsTooLarge (unused : Nat)
  | UnexpectedType (expected : ASNTypeId) (actual : ASNTypeId)
  | ExpectedEnd (actual : ASNTypeId)
  | IntegerTooLarge (len : Nat)
  | BadEnumValue (name : String) (value : Int)
  | UnexpectedOid (oid : ASNObjectIdentifier)
  | UnexpectedTag (tag : Nat)
  | EmptySequence
  | EmptySet
deriving DecidableEq

/-- Is `b` a UTF-8 continuation byte (`0x80..=0xBF`)? -/
def isCont (b : Nat) : Bool := 0x80 ≤ b && b ≤ 0xBF

/-- Modelled from the spec: string `Bytes must be valid UTF-8`. The source
delegates to `str::from_utf8` (Rust standard library, not under `src/`);
this is the standard RFC 3629 well-formedness check it performs. -/
def utf8Valid : List Nat → Bool
  | [] => true
  | b :: rest =>
    if b ≤ 0x7F then utf8Valid rest
    else if 0xC2 ≤ b && b ≤ 0xDF then
      match rest with
      | c :: r => isCont c && utf8Valid r
      | [] => false
    else if b = 0xE0 then
      match rest with
      | c1 :: c2 :: r => (0xA0 ≤ c1 && c1 ≤ 0xBF) && isCont c2 && utf8Valid r
      | _ => false
    else if (0xE1 ≤ b && b ≤ 0xEC) || b = 0xEE || b = 0xEF then
      match rest with
      | c1 :: c2 :: r => isCont c1 && isCont c2 && utf8Valid r
      | _ => false
    else if b = 0xED then
      match rest with
      | c1 :: c2 :: r => (0x80 ≤ c1 && c1 ≤ 0x9F) && isCont c2 && utf8Valid r
      | _ => false
    else if b = 0xF0 then
      match rest with
      | c1 :: c2 :: c3 :: r =>
        (0x90 ≤ c1 && c1 ≤ 0xBF) && isCont c2 && isCont c3 && utf8Valid r
      | _ => false
    else if 0xF1 ≤ b && b ≤ 0xF3 then
      match rest with
      | c1 :: c2 :: c3 :: r => isCont c1 && isCont c2 && isCont c3 && utf8Valid r
      | _ => false
    else if b = 0xF4 then
      match rest with
      | c1 :: c2 :: c3 :: r =>
        (0x80 ≤ c1 && c1 ≤ 0x8F) && isCont c2 && isCont c3 && utf8Valid r
      | _ => false
    else false

/-- Is `b` an ASCII digit? -/
def isDigit (b : Nat) : Bool := 0x30 ≤ b && b ≤ 0x39

/-- Modelled from the spec: the four UTCTime formats of §6.2
(`YYMMDDHHMMSSZ`, `YYMMDDHHMMZ`, `YYMMDDHHMMSS±HHMM`, `YYMMDDHHMM±HHMM`).
The source delegates to `chrono` format-string parsing (external crate,
not under `src/`); we check the format shape (digit positions and the
`Z` / `+` / `-` terminator). -/
def utcFormatOk (l : List Nat) : Bool :=
  let isSign : Nat → Bool := fun b => b = 0x2B || b = 0x2D
  (l.length = 13 && (l.take 12).all isDigit && l.getD 12 0 = 0x5A) ||
  (l.length = 11 && (l.take 10).all isDigit && l.getD 10 0 = 0x5A) ||
  (l.length = 17 && (l.take 12).all isDigit && isSign (l.getD 12 0) &&
    ((l.drop 13).take 4).all isDigit) ||
  (l.length = 15 && (l.take 10).all isDigit && isSign (l.getD 10 0) &&
    ((l.drop 11).take 4).all isDigit)

/-- `parse_seq` (src/rasn/src/parser.rs lines 11-17). -/
def parse_seq (contents : List Nat) : Except ASNError ASNType :=
  if contents.isEmpty then .error .EmptySequence
  else .ok (.Sequence contents)

/-- `parse_set` (src/rasn/src/parser.rs lines 19-25). -/
def parse_set (contents : List Nat) : Except ASNError ASNType :=
  if contents.isEmpty then .error .EmptySet
  else .ok (.Set contents)

/-- `parse_null` (src/rasn/src/parser.rs lines 27-34). -/
def parse_null (contents : List Nat) : Except ASNError ASNType :=
  if contents.isEmpty then .ok .Null
  else .error (.NullWithNonEmptyContents contents.length)

/-- `parse_boolean` (src/rasn/src/parser.rs lines 36-43). -/
def parse_boolean (contents : List Nat) : Except ASNError ASNType :=
  match contents with
  | [0xFF] => .ok (.Boolean true)
  | [0x00] => .ok (.Boolean false)
  | [x] => .error (.BadBooleanValue x)
  | _ => .error (.BadBooleanLength contents.length)

/-- `parse_integer` (src/rasn/src/parser.rs lines 45-52). -/
def parse_integer (contents : List Nat) : Except ASNError ASNType :=
  if contents.isEmpty then .error .ZeroLengthInteger
  else .ok (.Integer ⟨contents⟩)

/-- `parse_utc_time` (src/rasn/src/parser.rs lines 59-74): UTF-8 check via
`str::from_utf8` (`?` raises `BadUTF8`), then the four chrono format
strings (failure raises `BadUTCTime`). -/
def parse_utc_time (contents : List Nat) : Except ASNError ASNType :=
  if utf8Valid contents then
    if utcFormatOk contents then .ok (.UTCTime ⟨contents⟩)
    else .error .BadUTCTime
  else .error .BadUTF8

/-- `parse_string` (src/rasn/src/parser.rs lines 76-81). -/
def parse_string (contents : List Nat) (create : List Nat → ASNType) :
    Except ASNError ASNType :=
  if utf8Valid contents then .ok (create contents)
  else .error .BadUTF8

/-- `parse_bit_string` (src/rasn/src/parser.rs lines 83-94): requires a
non-empty contents (first byte = unused-bit count ≤ 7); the remaining
octets are the payload. Note there is no check that the payload is
non-empty when the unused-bit count is positive. -/
def parse_bit_string (contents : List Nat) : Except ASNError ASNType :=
  match contents with
  | [] => .error .EndOfStream
  | unused_bits :: rest =>
    if unused_bits > 7 then .error (.BitStringUnusedBitsTooLarge unused_bits)
    else .ok (.BitString ⟨unused_bits, rest⟩)

/-- The arc loop `parse_one` inside `parse_object_identifier`
(src/rasn/src/parser.rs lines 98-119): base-128 continuation bytes, at
most 4 bytes per arc (`count > 3` rejected before the fourth
continuation read). -/
def parseOidOne : List Nat → Nat → Nat → Except ASNError (Nat × List Nat)
  | l, count, sum =>
    if count > 3 then .error .BadOidLength
    else
      match l with
      | [] => .error .EndOfStream
      | b :: rest =>
        let sum' := (sum <<< 7) + (b &&& 0x7F)
        if b &&& 0x80 ≠ 0 then parseOidOne rest (count + 1) sum'
        else .ok (sum', rest)

/-- The arc-collection loop of `parse_object_identifier`
(src/rasn/src/parser.rs lines 130-132): `while !reader.is_empty()` push
one arc. `fuel` bounds the iteration count; every iteration consumes at
least one byte, so `fuel = l.length` suffices. -/
def parseOidArcs : Nat → List Nat → Except ASNError (List Nat)
  | _, [] => .ok []
  | 0, _ :: _ => .error .EndOfStream
  | fuel + 1, l@(_ :: _) =>
    match parseOidOne l 0 0 with
    | .error e => .error e
    | .ok (arc, r) =>
      match parseOidArcs fuel r with
      | .error e => .error e
      | .ok arcs => .ok (arc :: arcs)

/-- `parse_object_identifier` (src/rasn/src/parser.rs lines 96-135): the
first content byte yields the two leading arcs (`b / 40`, `b mod 40`),
the rest is the arc loop. -/
def parse_object_identifier (contents : List Nat) : Except ASNError ASNType :=
  match contents with
  | [] => .error .EndOfStream
  | b :: rest =>
    match parseOidArcs rest.length rest with
    | .error e => .error e
    | .ok arcs => .ok (.ObjectIdentifier ⟨(b / 40) :: (b % 40) :: arcs⟩)

/-- The big-endian accumulation loop of `parse_length`
(src/rasn/src/parser.rs lines 161-166): read `count` bytes into
`value <<= 8; value |= byte`. -/
def readBE : Nat → List Nat → Nat → Except ASNError (Nat × List Nat)
  | 0, l, acc => .ok (acc, l)
  | _ + 1, [], _ => .error .EndOfStream
  | n + 1, b :: r, acc => readBE n r ((acc <<< 8) ||| b)

/-- `parse_length` (src/rasn/src/parser.rs lines 137-178): short form is
the low 7 bits; long form reads `count_of_bytes` big-endian bytes,
rejecting indefinite (0x80), reserved (0xFF), more than 4 length bytes,
a decoded value of 0, and a decoded value below 128. -/
def parse_length : List Nat → Except ASNError (Nat × List Nat)
  | [] => .error .EndOfStream
  | first_byte :: rest =>
    let top_bit := first_byte &&& 0x80
    let count_of_bytes := first_byte &&& 0x7F
    if top_bit = 0 then .ok (count_of_bytes, rest)
    else if count_of_bytes = 0 then .error .UnsupportedIndefiniteLength
    else if count_of_bytes = 127 then .error .ReservedLengthValue
    else if count_of_bytes < 1 ∨ count_of_bytes > 4 then
      .error (.UnsupportedLengthByteCount count_of_bytes)
    else
      match readBE count_of_bytes rest 0 with
      | .error e => .error e
      | .ok (value, r) =>
        if value = 0 then .error .UnsupportedIndefiniteLength
        else if value < 128 then .error (.BadLengthEncoding value)
        else .ok (value, r)

/-- `read_type` (src/rasn/src/parser.rs lines 215-249): the identifier
combinations the decoder understands. Any ContextSpecific+Constructed
identifier — including tag 31 — maps to `ExplicitTag`. -/
def read_type (id : Identifier) : Option ASNTypeId :=
  match id.cls, id.pc with
  | .Universal, .Primitive =>
    match id.tag with
    | 0x01 => some .Boolean
    | 0x02 => some .Integer
    | 0x03 => some .BitString
    | 0x04 => some .OctetString
    | 0x05 => some .Null
    | 0x06 => some .ObjectIdentifier
    | 0x0C => some .UTF8String
    | 0x13 => some .PrintableString
    | 0x16 => some .IA5String
    | 0x17 => some .UTCTime
    | _ => none
  | .Universal, .Constructed =>
    match id.tag with
    | 0x10 => some .Sequence
    | 0x11 => some .Set
    | _ => none
  | .ContextSpecific, .Constructed => some .ExplicitTag
  | _, _ => none

/-- `Reader::take` (src/rasn/src/reader.rs lines 49-54). -/
def Reader.take (count : Nat) (l : List Nat) : Option (List Nat × List Nat) :=
  if count ≤ l.length then some (l.take count, l.drop count) else none

/-- The per-variant dispatch inside `parse_one_type`
(src/rasn/src/parser.rs lines 193-209). -/
def parse_value (tid : ASNTypeId) (id : Identifier) (contents : List Nat) :
    Except ASNError ASNType :=
  match tid with
  | .Boolean => parse_boolean contents
  | .Integer => parse_integer contents
  | .BitString => parse_bit_string contents
  | .OctetString => .ok (.OctetString contents)
  | .Null => parse_null contents
  | .ObjectIdentifier => parse_object_identifier contents
  | .UTF8String => parse_string contents ASNType.UTF8String
  | .PrintableString => parse_string contents ASNType.PrintableString
  | .IA5String => parse_string contents ASNType.IA5String
  | .UTCTime => parse_utc_time contents
  | .Sequence => parse_seq contents
  | .Set => parse_set contents
  | .ExplicitTag => .ok (.ExplicitTag ⟨id.tag, contents⟩)

/-- `parse_one_type` (src/rasn/src/parser.rs lines 180-213): read the
identifier octet, classify it, read the length and the contents window,
then decode the contents for the classified type. -/
def parse_one_type (w : List Nat) : Except ASNError (ASNType × List Nat) :=
  match w with
  | [] => .error .EndOfStream
  | b :: r =>
    let id := Identifier.fromByte b
    match read_type id with
    | none => .error (.UnsupportedId id)
    | some tid =>
      match parse_length r with
      | .error e => .error e
      | .ok (n, r2) =>
        match Reader.take n r2 with
        | none => .error .EndOfStream
        | some (contents, r3) =>
          match parse_value tid id contents with
          | .error e => .error e
          | .ok t => .ok (t, r3)

/-- `<Parser as Iterator>::next` (src/rasn/src/parser.rs lines 377-394):
`None` on an empty reader; on a decode error the reader is cleared. The
reader window is passed and returned explicitly. -/
def Parser.next (w : List Nat) : Option (Except ASNError ASNType × List Nat) :=
  match w with
  | [] => none
  | _ :: _ =>
    match parse_one_type w with
    | .error e => some (.error e, [])
    | .ok (t, r) => some (.ok t, r)

/-- Result of a `&mut Parser` method: the outcome together with the
reader window left behind. -/
abbrev PResult (α : Type) := Except ASNError α × List Nat

/-- Sequencing of parser steps; models Rust's `?` error propagation. -/
def pbind {α β : Type} (r : PResult α) (f : α → List Nat → PResult β) : PResult β :=
  match r with
  | (.ok v, w) => f v w
  | (.error e, w) => (.error e, w)

/-- Lift a pure `Result` into a parser step at the current window. -/
def plift {α : Type} (r : Except ASNError α) (w : List Nat) : PResult α := (r, w)

/-- `Parser::expect_any` (src/rasn/src/parser.rs lines 352-358). -/
def expect_any (w : List Nat) : PResult ASNType :=
  match Parser.next w with
  | some (.ok t, w') => (.ok t, w')
  | some (.error e, w') => (.error e, w')
  | none => (.error .EndOfStream, w)

/-- `Parser::expect::<T>` (src/rasn/src/parser.rs lines 331-342), with the
wrapper type `T` given by its `ASNTypeId` and its `get_value` projection. -/
def expectWith {α : Type} (tid : ASNTypeId) (proj : ASNType → Option α)
    (w : List Nat) : PResult α :=
  match expect_any w with
  | (.ok t, w') =>
    match proj t with
    | some value => (.ok value, w')
    | none => (.error (.UnexpectedType tid t.get_id), w')
  | (.error e, w') => (.error e, w')

/-- `Parser::expect_or_end::<T>` (src/rasn/src/parser.rs lines 344-350). -/
def expect_or_endWith {α : Type} (tid : ASNTypeId) (proj : ASNType → Option α)
    (w : List Nat) : PResult (Option α) :=
  match expectWith tid proj w with
  | (.ok value, w') => (.ok (some value), w')
  | (.error .EndOfStream, w') => (.ok none, w')
  | (.error e, w') => (.error e, w')

/-- `Parser::expect_any_or_end` (src/rasn/src/parser.rs lines 360-366). -/
def expect_any_or_end (w : List Nat) : PResult (Option ASNType) :=
  match Parser.next w with
  | some (.ok t, w') => (.ok (some t), w')
  | some (.error e, w') => (.error e, w')
  | none => (.ok none, w)

/-- `Parser::expect_end` (src/rasn/src/parser.rs lines 368-374). -/
def expect_end (w : List Nat) : PResult Unit :=
  match Parser.next w with
  | none => (.ok (), w)
  | some (.error e, w') => (.error e, w')
  | some (.ok t, w') => (.error (.ExpectedEnd t.get_id), w')

/-- `Parser::get_optional::<T>` (src/rasn/src/parser.rs lines 317-329):
peek the identifier; if its decoded kind equals `T`'s, consume via
`expect`; if it is another known kind, leave the reader untouched and
return `None`; if it is unknown, fail. -/
def getOptionalWith {α : Type} (tid : ASNTypeId) (proj : ASNType → Option α)
    (w : List Nat) : PResult (Option α) :=
  match w with
  | [] => (.ok none, w)
  | b :: _ =>
    let id := Identifier.fromByte b
    match read_type id with
    | some tid' =>
      if tid' = tid then
        match expectWith tid proj w with
        | (.ok value, w') => (.ok (some value), w')
        | (.error e, w') => (.error e, w')
      else (.ok none, w)
    | none => (.error (.UnsupportedId id), w)

/-- `Parser::get_optional_or_default::<T>` (src/rasn/src/parser.rs lines
310-315). -/
def getOptionalOrDefaultWith {α : Type} (tid : ASNTypeId)
    (proj : ASNType → Option α) (default : α) (w : List Nat) : PResult α :=
  match getOptionalWith tid proj w with
  | (.ok (some value), w') => (.ok value, w')
  | (.ok none, w') => (.ok default, w')
  | (.error e, w') => (.error e, w')

/-- `Parser::get_optional_explicit_tag` (src/rasn/src/parser.rs lines
296-308): like `get_optional`, but matches only an `ExplicitTag` whose
tag number equals `tag`; any other known identifier leaves the reader
untouched. -/
def get_optional_explicit_tag (tag : Nat) (w : List Nat) :
    PResult (Option ASNExplicitTag) :=
  match w with
  | [] => (.ok none, w)
  | b :: _ =>
    let id := Identifier.fromByte b
    match read_type id with
    | some tid =>
      if tid = .ExplicitTag ∧ id.tag = tag then
        match expectWith .ExplicitTag
            (fun t => match t with | .ExplicitTag v => some v | _ => none) w with
        | (.ok value, w') => (.ok (some value), w')
        | (.error e, w') => (.error e, w')
      else (.ok none, w)
    | none => (.error (.UnsupportedId id), w)

/-- `get_value` projections of the wrapper types
(src/rasn/src/types.rs, the `ASNWrapperType` impls). -/
def projBoolean : ASNType → Option Bool
  | .Boolean v => some v
  | _ => none

def projInteger : ASNType → Option ASNInteger
  | .Integer v => some v
  | _ => none

def projSequence : ASNType → Option (List Nat)
  | .Sequence v => some v
  | _ => none

def projSet : ASNType → Option (List Nat)
  | .Set v => some v
  | _ => none

def projBitString : ASNType → Option ASNBitString
  | .BitString v => some v
  | _ => none

def projOctetString : ASNType → Option (List Nat)
  | .OctetString v => some v
  | _ => none

def projObjectIdentifier : ASNType → Option ASNObjectIdentifier
  | .ObjectIdentifier v => some v
  | _ => none

def projUTCTime : ASNType → Option UtcTime
  | .UTCTime v => some v
  | _ => none

def projUTF8String : ASNType → Option (List Nat)
  | .UTF8String v => some v
  | _ => none

def projExplicitTag : ASNType → Option ASNExplicitTag
  | .ExplicitTag v => some v
  | _ => none

/-- `Parser::parse_all` / the free `parse_all`
(src/rasn/src/parser.rs lines 255-260): run `f` on a fresh parser over
`input`, then `expect_end`. -/
def Parser.parse_all {α : Type} (input : List Nat)
    (f : List Nat → PResult α) : Except ASNError α :=
  match f input with
  | (.error e, _) => .error e
  | (.ok value, w) =>
    match expect_end w with
    | (.ok _, _) => .ok value
    | (.error e, _) => .error e

/-- `Parser::unwrap_outer_sequence` (src/rasn/src/parser.rs lines
268-273): decode exactly one outer SEQUENCE and return its contents. -/
def Parser.unwrap_outer_sequence (input : List Nat) :
    Except ASNError (List Nat) :=
  match expectWith .Sequence projSequence input with
  | (.error e, _) => .error e
  | (.ok bytes, w) =>
    match expect_end w with
    | (.ok _, _) => .ok bytes
    | (.error e, _) => .error e

/-- `Constructed<T>` (src/rasn/src/x509.rs lines 9-19): a decoded value
together with the raw SEQUENCE contents it was decoded from. -/
structure Constructed (α : Type) where
  bytes : List Nat
  value : α
deriving DecidableEq

/-- `AlgorithmIdentifier` (src/rasn/src/x509.rs lines 59-63). -/
structure AlgorithmIdentifier where
  algorithm : ASNObjectIdentifier
  parameters : Option ASNType
deriving DecidableEq

/-- `AlgorithmIdentifier::parse` (src/rasn/src/x509.rs lines 391-399):
an OID then an optional ANY; no end-of-stream assertion. -/
def AlgorithmIdentifier.parse (input : List Nat) :
    Except ASNError AlgorithmIdentifier :=
  (pbind (expectWith .ObjectIdentifier projObjectIdentifier input)
    (fun algorithm w =>
      pbind (expect_any_or_end w) (fun parameters w =>
        (.ok { algorithm := algorithm, parameters := parameters }, w)))).1

/-- `Version` (src/rasn/src/x509.rs lines 72-77). -/
inductive Version
  | V1
  | V2
  | V3
deriving DecidableEq

/-- `Name` (src/rasn/src/x509.rs lines 307-320): lazily stored raw
bytes. -/
structure Name where
  inner : List Nat
deriving DecidableEq

/-- `Validity` (src/rasn/src/x509.rs lines 151-163). -/
structure Validity where
  not_before : UtcTime
  not_after : UtcTime
deriving DecidableEq

/-- `Validity::parse` (src/rasn/src/x509.rs lines 165-172): two UTCTimes
and nothing else. -/
def Validity.parse (input : List Nat) : Except ASNError Validity :=
  Parser.parse_all input (fun w =>
    pbind (expectWith .UTCTime projUTCTime w) (fun not_before w =>
      pbind (expectWith .UTCTime projUTCTime w) (fun not_after w =>
        (.ok { not_before := not_before, not_after := not_after }, w))))

/-- `SubjectPublicKeyInfo` (src/rasn/src/x509.rs lines 330-334). -/
structure SubjectPublicKeyInfo where
  algorithm : AlgorithmIdentifier
  subject_public_key : ASNBitString
deriving DecidableEq

/-- `SubjectPublicKeyInfo::parse` (src/rasn/src/x509.rs lines 347-354). -/
def SubjectPublicKeyInfo.parse (input : List Nat) :
    Except ASNError SubjectPublicKeyInfo :=
  Parser.parse_all input (fun w =>
    pbind (expectWith .Sequence projSequence w) (fun algBytes w =>
      pbind (plift (AlgorithmIdentifier.parse algBytes) w) (fun algorithm w =>
        pbind (expectWith .BitString projBitString w) (fun key w =>
          (.ok { algorithm := algorithm, subject_public_key := key }, w)))))

/-- `Extensions` (src/rasn/src/x509/ext.rs lines 5-13): lazily stored raw
contents of the `[3]` explicit tag. -/
structure Extensions where
  raw_content : List Nat
deriving DecidableEq

/-- `TBSCertificate` (src/rasn/src/x509.rs lines 79-91). -/
structure TBSCertificate where
  version : Version
  serial_number : ASNInteger
  signature : AlgorithmIdentifier
  issuer : Name
  validity : Validity
  subject : Name
  subject_public_key_info : SubjectPublicKeyInfo
  issuer_unique_id : Option ASNBitString
  subject_unique_id : Option ASNBitString
  extensions : Option Extensions
deriving DecidableEq

/-- `Certificate` (src/rasn/src/x509.rs lines 21-27). -/
structure Certificate where
  tbs_certificate : Constructed TBSCertificate
  signature_algorithm : AlgorithmIdentifier
  signature_value : ASNBitString
deriving DecidableEq

/-- Modelled from the spec: `get_optional_explicit_tag_value<T>(n)`
"unwraps the explicit tag and decodes its single inner value as `T`"
(§4.D), instantiated at `T = Integer`. Its implementation lives in the
rx509 `Parser`, which is not under `src/`; the rasn analogue
`get_explicitly_tagged_integer_or_default` (src/rasn/src/parser.rs lines
282-294) decodes the tag contents with a fresh parser the same way. -/
def get_optional_explicit_tag_value_integer (tag : Nat) (w : List Nat) :
    PResult (Option ASNInteger) :=
  match get_optional_explicit_tag tag w with
  | (.ok none, w') => (.ok none, w')
  | (.ok (some et), w') =>
    match expectWith .Integer projInteger et.contents with
    | (.ok value, _) => (.ok (some value), w')
    | (.error e, _) => (.error e, w')
  | (.error e, w') => (.error e, w')

/-- `parse_version` inside `TBSCertificate::parse`
(src/rasn/src/x509.rs lines 439-450). -/
def parse_version (w : List Nat) : PResult Version :=
  match get_optional_explicit_tag_value_integer 0 w with
  | (.ok (some value), w') =>
    match value.as_i32 with
    | some 0 => (.ok .V1, w')
    | some 1 => (.ok .V2, w')
    | some 2 => (.ok .V3, w')
    | some x => (.error (.BadEnumValue "version" x), w')
    | none => (.error (.IntegerTooLarge value.bytes.length), w')
  | (.ok none, w') => (.ok .V1, w')
  | (.error e, w') => (.error e, w')

/-- `parse_optional_bitstring` inside `TBSCertificate::parse`
(src/rasn/src/x509.rs lines 452-463). -/
def parse_optional_bitstring (tag : Nat) (w : List Nat) :
    PResult (Option ASNBitString) :=
  match get_optional_explicit_tag tag w with
  | (.ok (some et), w') =>
    (Parser.parse_all et.contents (fun w2 =>
      pbind (expectWith .BitString projBitString w2) (fun bs w2 =>
        (.ok (some bs), w2))), w')
  | (.ok none, w') => (.ok none, w')
  | (.error e, w') => (.error e, w')

/-- `parse_extensions` inside `TBSCertificate::parse`
(src/rasn/src/x509.rs lines 465-474). -/
def parse_extensions (w : List Nat) : PResult (Option Extensions) :=
  match get_optional_explicit_tag 3 w with
  | (.ok (some et), w') => (.ok (some ⟨et.contents⟩), w')
  | (.ok none, w') => (.ok none, w')
  | (.error e, w') => (.error e, w')

/-- `parse_tbs_cert` inside `TBSCertificate::parse`
(src/rasn/src/x509.rs lines 476-491): the ten fields in order. -/
def parse_tbs_cert (w : List Nat) : PResult TBSCertificate :=
  pbind (parse_version w) (fun version w =>
  pbind (expectWith .Integer projInteger w) (fun serial_number w =>
  pbind (expectWith .Sequence projSequence w) (fun sigBytes w =>
  pbind (plift (AlgorithmIdentifier.parse sigBytes) w) (fun signature w =>
  pbind (expectWith .Sequence projSequence w) (fun issuerBytes w =>
  pbind (expectWith .Sequence projSequence w) (fun validityBytes w =>
  pbind (plift (Validity.parse validityBytes) w) (fun validity w =>
  pbind (expectWith .Sequence projSequence w) (fun subjectBytes w =>
  pbind (expectWith .Sequence projSequence w) (fun spkiBytes w =>
  pbind (plift (SubjectPublicKeyInfo.parse spkiBytes) w) (fun spki w =>
  pbind (parse_optional_bitstring 1 w) (fun issuer_unique_id w =>
  pbind (parse_optional_bitstring 2 w) (fun subject_unique_id w =>
  pbind (parse_extensions w) (fun extensions w =>
    (.ok {
      version := version
      serial_number := serial_number
      signature := signature
      issuer := ⟨issuerBytes⟩
      validity := validity
      subject := ⟨subjectBytes⟩
      subject_public_key_info := spki
      issuer_unique_id := issuer_unique_id
      subject_unique_id := subject_unique_id
      extensions := extensions }, w))))))))))))))

/-- `TBSCertificate::parse` (src/rasn/src/x509.rs lines 438-497): parse
the ten fields from `input` and return them wrapped in
`Constructed::new(input, …)`, preserving the raw SEQUENCE contents. -/
def TBSCertificate.parse (input : List Nat) :
    Except ASNError (Constructed TBSCertificate) :=
  match Parser.parse_all input parse_tbs_cert with
  | .error e => .error e
  | .ok value => .ok { bytes := input, value := value }

/-- `Certificate::parse` (src/rasn/src/x509.rs lines 364-376): an outer
SEQUENCE holding the TBSCertificate SEQUENCE, the signature-algorithm
SEQUENCE, and the signature BIT STRING. -/
def Certificate.parse (input : List Nat) : Except ASNError Certificate :=
  Parser.parse_all input (fun p1 =>
    pbind (expectWith .Sequence projSequence p1) (fun certBytes w1 =>
      (Parser.parse_all certBytes (fun p2 =>
        pbind (expectWith .Sequence projSequence p2) (fun tbsBytes w2 =>
        pbind (plift (TBSCertificate.parse tbsBytes) w2) (fun tbs w2 =>
        pbind (expectWith .Sequence projSequence w2) (fun algBytes w2 =>
        pbind (plift (AlgorithmIdentifier.parse algBytes) w2) (fun alg w2 =>
        pbind (expectWith .BitString projBitString w2) (fun sig w2 =>
          (.ok {
            tbs_certificate := tbs
            signature_algorithm := alg
            signature_value := sig }, w2))))))), w1)))

/-- `KeyUsage` (src/rasn/src/x509/ext.rs lines 145-156 and
src/rasn/src/extensions.rs lines 128-139): nine boolean flags. -/
structure KeyUsage where
  digital_signature : Bool
  content_commitment : Bool
  key_encipherment : Bool
  data_encipherment : Bool
  key_agreement : Bool
  key_cert_sign : Bool
  crl_sign : Bool
  encipher_only : Bool
  decipher_only : Bool
deriving DecidableEq

/-- The all-false initial value of `KeyUsage::parse`. -/
def KeyUsage.empty : KeyUsage :=
  { digital_signature := false
    content_commitment := false
    key_encipherment := false
    data_encipherment := false
    key_agreement := false
    key_cert_sign := false
    crl_sign := false
    encipher_only := false
    decipher_only := false }

/-- One iteration of the bit loop in `KeyUsage::parse`
(src/rasn/src/x509/ext.rs lines 174-189): assign the flag selected by
`offset`, then advance with `offset += offset` — exactly as written in
the source, where the offset therefore never leaves 0. -/
def keyUsageStep (st : KeyUsage × Nat) (bit : Bool) : KeyUsage × Nat :=
  let ku := st.1
  let offset := st.2
  let ku :=
    match offset with
    | 0 => { ku with digital_signature := bit }
    | 1 => { ku with content_commitment := bit }
    | 2 => { ku with key_encipherment := bit }
    | 3 => { ku with data_encipherment := bit }
    | 4 => { ku with key_agreement := bit }
    | 5 => { ku with key_cert_sign := bit }
    | 6 => { ku with crl_sign := bit }
    | 7 => { ku with encipher_only := bit }
    | 8 => { ku with decipher_only := bit }
    | _ => ku
  (ku, offset + offset)

/-- `KeyUsage::parse` (src/rasn/src/x509/ext.rs lines 158-192, identical
loop in src/rasn/src/extensions.rs lines 143-191): expect a BitString on
a fresh parser over `input`, then run the bit loop over its iterator. -/
def KeyUsage.parse (input : List Nat) : Except ASNError KeyUsage :=
  (pbind (expectWith .BitString projBitString input) (fun bit_string w =>
    (.ok (bit_string.bits.foldl keyUsageStep (KeyUsage.empty, 0)).1, w))).1

/-- `RelativeDistinguishedName` (src/rasn/src/x509.rs lines 189-196):
the six recognized DN attribute slots, each holding the attribute's
string bytes. -/
structure RelativeDistinguishedName where
  country_name : Option (List Nat)
  state_or_province_unit_name : Option (List Nat)
  locality_name : Option (List Nat)
  organization : Option (List Nat)
  organizational_unit_name : Option (List Nat)
  common_name : Option (List Nat)
deriving DecidableEq

/-- `RelativeDistinguishedName::empty` (src/rasn/src/x509.rs lines
198-208). -/
def RelativeDistinguishedName.empty : RelativeDistinguishedName :=
  { country_name := none
    state_or_province_unit_name := none
    locality_name := none
    organization := none
    organizational_unit_name := none
    common_name := none }

/-- The string extraction at the head of `fill_name_component`
(src/rasn/src/x509.rs lines 235-245): IA5String, PrintableString and
UTF8String values are accepted. -/
def strValue : ASNType → Option (List Nat)
  | .IA5String v => some v
  | .PrintableString v => some v
  | .UTF8String v => some v
  | _ => none

/-- `fill_name_component` (src/rasn/src/x509.rs lines 230-255): reject
non-string values with `UnexpectedType`; reject a second occurrence of
the same slot with `UnexpectedOid`; otherwise fill the slot. Returns the
new slot contents. -/
def fill_name_component (value : ASNType) (component : Option (List Nat))
    (oid : ASNObjectIdentifier) : Except ASNError (Option (List Nat)) :=
  match strValue value with
  | none => .error (.UnexpectedType .PrintableString value.get_id)
  | some str_value =>
    match component with
    | some _ => .error (.UnexpectedOid oid)
    | none => .ok (some str_value)

/-- The `match oid.values()` dispatch inside
`RelativeDistinguishedName::parse_single` (src/rasn/src/x509.rs lines
261-273): the six recognized attribute OIDs fill their slot, everything
else is silently ignored. -/
def rdn_dispatch (st : RelativeDistinguishedName) (oid : ASNObjectIdentifier)
    (value : ASNType) : Except ASNError RelativeDistinguishedName :=
  match oid.values with
  | [2, 5, 4, 3] =>
    (fill_name_component value st.common_name oid).map
      (fun c => { st with common_name := c })
  | [2, 5, 4, 6] =>
    (fill_name_component value st.country_name oid).map
      (fun c => { st with country_name := c })
  | [2, 5, 4, 7] =>
    (fill_name_component value st.locality_name oid).map
      (fun c => { st with locality_name := c })
  | [2, 5, 4, 8] =>
    (fill_name_component value st.state_or_province_unit_name oid).map
      (fun c => { st with state_or_province_unit_name := c })
  | [2, 5, 4, 10] =>
    (fill_name_component value st.organization oid).map
      (fun c => { st with organization := c })
  | [2, 5, 4, 11] =>
    (fill_name_component value st.organizational_unit_name oid).map
      (fun c => { st with organizational_unit_name := c })
  | _ => .ok st

/-- `RelativeDistinguishedName::parse_single` (src/rasn/src/x509.rs lines
229-275): one AttributeTypeAndValue SEQUENCE — an OID, one value, and
nothing else. -/
def RelativeDistinguishedName.parse_single (st : RelativeDistinguishedName)
    (input : List Nat) : Except ASNError RelativeDistinguishedName :=
  Parser.parse_all input (fun w =>
    pbind (expectWith .ObjectIdentifier projObjectIdentifier w) (fun oid w =>
      pbind (expect_any w) (fun value w =>
        plift (rdn_dispatch st oid value) w)))

/-- The six `RelativeDistinguishedName` slots, for stating uniqueness. -/
inductive RdnSlot
  | commonName
  | countryName
  | localityName
  | stateOrProvince
  | organization
  | organizationalUnit
deriving DecidableEq

/-- Read a slot of a `RelativeDistinguishedName`. -/
def RelativeDistinguishedName.get (st : RelativeDistinguishedName) :
    RdnSlot → Option (List Nat)
  | .commonName => st.common_name
  | .countryName => st.country_name
  | .localityName => st.locality_name
  | .stateOrProvince => st.state_or_province_unit_name
  | .organization => st.organization
  | .organizationalUnit => st.organizational_unit_name

/-- The slot recognized for an OID arc list, mirroring the arms of
`rdn_dispatch`. -/
def recognizedOid : List Nat → Option RdnSlot
  | [2, 5, 4, 3] => some .commonName
  | [2, 5, 4, 6] => some .countryName
  | [2, 5, 4, 7] => some .localityName
  | [2, 5, 4, 8] => some .stateOrProvince
  | [2, 5, 4, 10] => some .organization
  | [2, 5, 4, 11] => some .organizationalUnit
  | _ => none

/-- The inner loop of `RelativeDistinguishedName::parse`
(src/rasn/src/x509.rs lines 220-223): after the mandatory first
SEQUENCE, keep parsing SEQUENCEs until end of the set. `fuel` bounds the
iterations; each one consumes at least one byte, so `w.length`
suffices. -/
def parseRdnSeqLoop : Nat → RelativeDistinguishedName → List Nat →
    Except ASNError RelativeDistinguishedName
  | 0, st, w =>
    match expect_or_endWith .Sequence projSequence w with
    | (.error e, _) => .error e
    | (.ok none, _) => .ok st
    | (.ok (some _), _) => .error .EndOfStream
  | fuel + 1, st, w =>
    match expect_or_endWith .Sequence projSequence w with
    | (.error e, _) => .error e
    | (.ok none, _) => .ok st
    | (.ok (some seq), w') =>
      match st.parse_single seq with
      | .error e => .error e
      | .ok st' => parseRdnSeqLoop fuel st' w'

/-- The outer loop of `RelativeDistinguishedName::parse`
(src/rasn/src/x509.rs lines 215-224): iterate SETs; inside each set,
expect at least one AttributeTypeAndValue SEQUENCE, then the inner
loop. -/
def parseRdnSetLoop : Nat → RelativeDistinguishedName → List Nat →
    Except ASNError RelativeDistinguishedName
  | 0, st, w =>
    match expect_or_endWith .Set projSet w with
    | (.error e, _) => .error e
    | (.ok none, _) => .ok st
    | (.ok (some _), _) => .error .EndOfStream
  | fuel + 1, st, w =>
    match expect_or_endWith .Set projSet w with
    | (.error e, _) => .error e
    | (.ok none, _) => .ok st
    | (.ok (some set), w') =>
      match expectWith .Sequence projSequence set with
      | (.error e, _) => .error e
      | (.ok seq1, wIn) =>
        match st.parse_single seq1 with
        | .error e => .error e
        | .ok st1 =>
          match parseRdnSeqLoop wIn.length st1 wIn with
          | .error e => .error e
          | .ok st2 => parseRdnSetLoop fuel st2 w'

/-- `RelativeDistinguishedName::parse` (src/rasn/src/x509.rs lines
210-227). -/
def RelativeDistinguishedName.parse (input : List Nat) :
    Except ASNError RelativeDistinguishedName :=
  parseRdnSetLoop input.length RelativeDistinguishedName.empty input

/-- The callbacks of `ParseHandler` (src/rx509/src/der/parse_all.rs lines
4-9), reified as an event trace. -/
inductive WalkEvent
  | beginConstructed
  | endConstructed
  | onType (t : ASNType)
  | onError (e : ASNError)
deriving DecidableEq

/-- The payload window of the three constructed kinds the walker descends
into (src/rx509/src/der/parse_all.rs lines 22-36): Sequence, ExplicitTag
and Set. -/
def constructedContents : ASNType → Option (List Nat)
  | .Sequence v => some v
  | .Set v => some v
  | .ExplicitTag et => some et.contents
  | _ => none

/-- `parse_all` — the generic tree walker (src/rx509/src/der/parse_all.rs
lines 11-44) — as the event trace it hands to the `ParseHandler`,
together with the error it returns, if any. `fuel` bounds the recursion
depth and loop length; each iterator step and each descent strictly
shrinks the window, so `w.length` suffices. -/
def walkFuel : Nat → List Nat → List WalkEvent × Option ASNError
  | 0, _ => ([], none)
  | fuel + 1, w =>
    match Parser.next w with
    | none => ([], none)
    | some (.error e, _) => ([.onError e], some e)
    | some (.ok t, w') =>
      match constructedContents t with
      | none =>
        let r := walkFuel fuel w'
        (.onType t :: r.1, r.2)
      | some c =>
        let ri := walkFuel fuel c
        match ri.2 with
        | some e => (.onType t :: .beginConstructed :: ri.1, some e)
        | none =>
          let r := walkFuel fuel w'
          (.onType t :: .beginConstructed :: ri.1 ++ .endConstructed :: r.1,
            r.2)

/-- The tree walker on a window (see `walkFuel`). -/
def walk (w : List Nat) : List WalkEvent × Option ASNError :=
  walkFuel w.length w

/-- The top-level TLV stream produced by the `Parser` iterator
(src/rasn/src/parser.rs lines 377-394) on a window; after an error the
iterator stops (the reader was cleared). -/
def tokensFuel : Nat → List Nat → List (Except ASNError ASNType)
  | 0, _ => []
  | fuel + 1, w =>
    match Parser.next w with
    | none => []
    | some (r, w') => r :: tokensFuel fuel w'

/-- The top-level TLV stream of a window. -/
def tokens (w : List Nat) : List (Except ASNError ASNType) :=
  tokensFuel w.length w

/-- Specification-side reading of the walker contract (the sentence of
the spec, §4.E): for each top-level TLV the walker emits `on_type`; for
each of the three constructed kinds it additionally emits
`begin_constructed`, recursively walks that value's contents, and then
emits `end_constructed`; a decode error emits `on_error` once and aborts.
Defined by recursion on the top-level token list, to be compared with the
walker `walk`, which loops over the raw window. -/
def blocksOf : List (Except ASNError ASNType) → List WalkEvent × Option ASNError
  | [] => ([], none)
  | .error e :: _ => ([.onError e], some e)
  | .ok t :: rest =>
    match constructedContents t with
    | none =>
      let r := blocksOf rest
      (.onType t :: r.1, r.2)
    | some c =>
      match walk c with
      | (evs, some e) => (.onType t :: .beginConstructed :: evs, some e)
      | (evs, none) =>
        let r := blocksOf rest
        (.onType t :: .beginConstructed :: evs ++ .endConstructed :: r.1,
          r.2)

/-- A small synthetic certificate (outer SEQUENCE of: TBS SEQUENCE with
serial, signature AlgorithmIdentifier, issuer, validity of two UTCTimes,
subject, SubjectPublicKeyInfo; then the signature-algorithm SEQUENCE and
the signature BIT STRING), used to instantiate theorems on a concrete
input. -/
def x509CertExample : List Nat :=
  [0x30, 0x46,
    0x30, 0x3C,
      0x02, 0x01, 0x01,
      0x30, 0x03, 0x06, 0x01, 0x2A,
      0x30, 0x03, 0x02, 0x01, 0x00,
      0x30, 0x1E,
        0x17, 0x0D, 0x39, 0x39, 0x30, 0x31, 0x30, 0x32, 0x30, 0x35,
          0x32, 0x33, 0x34, 0x35, 0x5A,
        0x17, 0x0D, 0x39, 0x39, 0x30, 0x31, 0x30, 0x32, 0x30, 0x35,
          0x32, 0x33, 0x34, 0x35, 0x5A,
      0x30, 0x03, 0x02, 0x01, 0x00,
      0x30, 0x08, 0x30, 0x03, 0x06, 0x01, 0x2A, 0x03, 0x01, 0x00,
    0x30, 0x03, 0x06, 0x01, 0x2A,
    0x03, 0x01, 0x00]

/-! ### Structural lemmas about the TLV decoder -/

/-- `readBE` consumes exactly `n` bytes. -/
theorem readBE_prefix :
    ∀ (n : Nat) (l : List Nat) (acc v : Nat) (r : List Nat),
      readBE n l acc = .ok (v, r) → ∃ lb, l = lb ++ r ∧ lb.length = n := by
  intro n
  induction n with
  | zero =>
    intro l acc v r h
    simp only [readBE, Except.ok.injEq, Prod.mk.injEq] at h
    exact ⟨[], by simp [h.2], rfl⟩
  | succ n ih =>
    intro l acc v r h
    cases l with
    | nil => simp [readBE] at h
    | cons b rest =>
      simp only [readBE] at h
      obtain ⟨lb, hl, hlen⟩ := ih rest _ v r h
      exact ⟨b :: lb, by simp [hl], by simp [hlen]⟩

/-- A successful `parse_length` consumes a non-empty prefix. -/
theorem parse_length_prefix {l : List Nat} {n : Nat} {r : List Nat}
    (h : parse_length l = .ok (n, r)) : ∃ lb, l = lb ++ r ∧ lb ≠ [] := by
  cases l with
  | nil => simp [parse_length] at h
  | cons b rest =>
    simp only [parse_length] at h
    split at h
    · cases h
      exact ⟨[b], rfl, by simp⟩
    · split at h
      · exact absurd h (by simp)
      · split at h
        · exact absurd h (by simp)
        · split at h
          · exact absurd h (by simp)
          · split at h
            · exact absurd h (by simp)
            · rename_i v r2 hbe
              split at h
              · exact absurd h (by simp)
              · split at h
                · exact absurd h (by simp)
                · cases h
                  obtain ⟨lb, hl, _⟩ := readBE_prefix _ _ _ _ _ hbe
                  exact ⟨b :: lb, by simp [hl], by simp⟩

/-- `Reader::take` splits the window. -/
theorem take_eq {n : Nat} {l c r : List Nat}
    (h : Reader.take n l = some (c, r)) : l = c ++ r ∧ c.length = n := by
  simp only [Reader.take] at h
  split at h
  · simp only [Option.some.injEq, Prod.mk.injEq] at h
    refine ⟨?_, ?_⟩
    · rw [← h.1, ← h.2]; exact (List.take_append_drop n l).symm
    · rw [← h.1]; simp; omega
  · exact absurd h (by simp)

/-- A value decoded for a classified identifier carries that identifier's
type id. -/
theorem parse_value_get_id {tid : ASNTypeId} {id : Identifier}
    {c : List Nat} {t : ASNType} (h : parse_value tid id c = .ok t) :
    t.get_id = tid := by
  cases tid <;>
    simp only [parse_value, parse_boolean, parse_integer, parse_bit_string,
      parse_null, parse_object_identifier, parse_string, parse_utc_time,
      parse_seq, parse_set] at h <;>
    (try split at h) <;>
    (try split at h) <;>
    (try split at h) <;>
    (try (injection h with h)) <;>
    first
      | exact absurd h (by simp)
      | (subst h; rfl)
      | simp_all [ASNType.get_id]

/-- The payload of a decoded constructed value is exactly the contents
window it was decoded from. -/
theorem parse_value_contents {tid : ASNTypeId} {id : Identifier}
    {c : List Nat} {t : ASNType} (h : parse_value tid id c = .ok t) :
    constructedContents t = none ∨ constructedContents t = some c := by
  cases tid <;>
    simp only [parse_value, parse_boolean, parse_integer, parse_bit_string,
      parse_null, parse_object_identifier, parse_string, parse_utc_time,
      parse_seq, parse_set] at h <;>
    (try split at h) <;>
    (try split at h) <;>
    (try split at h) <;>
    (try (injection h with h)) <;>
    first
      | exact absurd h (by simp)
      | (subst h; simp [constructedContents])
      | simp_all [constructedContents]

/-- Shape of a successful `parse_one_type`: the window splits into the
identifier octet, the length bytes, the contents and the remainder; the
length bytes decode to the contents length; for constructed results the
payload is the contents window. -/
theorem parse_one_type_shape {w : List Nat} {t : ASNType} {r : List Nat}
    (h : parse_one_type w = .ok (t, r)) :
    ∃ b lb c, w = b :: (lb ++ (c ++ r)) ∧
      read_type (Identifier.fromByte b) = some t.get_id ∧
      parse_length (lb ++ (c ++ r)) = .ok (c.length, c ++ r) ∧
      (constructedContents t = none ∨ constructedContents t = some c) := by
  cases w with
  | nil => simp [parse_one_type] at h
  | cons b rest =>
    simp only [parse_one_type] at h
    split at h
    · exact absurd h (by simp)
    · rename_i tid hrt
      split at h
      · exact absurd h (by simp)
      · rename_i n r2 hpl
        split at h
        · exact absurd h (by simp)
        · rename_i c r3 htk
          split at h
          · exact absurd h (by simp)
          · rename_i t2 hpv
            cases h
            obtain ⟨hsplit, hlen⟩ := take_eq htk
            subst hsplit
            obtain ⟨lb, hl, _⟩ := parse_length_prefix hpl
            subst hl
            refine ⟨b, lb, c, rfl, ?_, ?_, parse_value_contents hpv⟩
            · rw [hrt, parse_value_get_id hpv]
            · rw [hpl, hlen]

/-- A successful `parse_one_type` strictly consumes input. -/
theorem parse_one_type_consumes {w : List Nat} {t : ASNType} {r : List Nat}
    (h : parse_one_type w = .ok (t, r)) : r.length < w.length := by
  obtain ⟨b, lb, c, hw, -, -, -⟩ := parse_one_type_shape h
  subst hw; simp; omega

/-- The parser iterator yields `none` exactly on the empty window. -/
theorem next_none_iff {w : List Nat} : Parser.next w = none ↔ w = [] := by
  cases w with
  | nil => simp [Parser.next]
  | cons b rest =>
    simp only [Parser.next]
    constructor
    · intro h; split at h <;> simp_all
    · intro h; simp at h

/-- Every yielded step of the parser iterator strictly shrinks the
window (on an error the reader is cleared). -/
theorem next_consumes {w : List Nat} {res : Except ASNError ASNType}
    {w' : List Nat} (h : Parser.next w = some (res, w')) :
    w'.length < w.length := by
  cases w with
  | nil => simp [Parser.next] at h
  | cons b rest =>
    simp only [Parser.next] at h
    rcases hp : parse_one_type (b :: rest) with _ | ⟨t, r⟩ <;> rw [hp] at h <;>
      simp only [Option.some.injEq, Prod.mk.injEq] at h
    · rw [← h.2]; simp
    · rw [← h.2]; exact parse_one_type_consumes hp

/-- A successful iterator step is a successful `parse_one_type`. -/
theorem next_ok {w : List Nat} {t : ASNType} {w' : List Nat}
    (h : Parser.next w = some (.ok t, w')) :
    parse_one_type w = .ok (t, w') := by
  cases w with
  | nil => simp [Parser.next] at h
  | cons b rest =>
    simp only [Parser.next] at h
    split at h
    · exact absurd h (by simp)
    · rename_i t2 r hp
      cases h
      exact hp

/-- The contents window of a constructed iterator result is strictly
smaller than the window it came from. -/
theorem next_contents_lt {w : List Nat} {t : ASNType} {w' c : List Nat}
    (h : Parser.next w = some (.ok t, w'))
    (hc : constructedContents t = some c) : c.length < w.length := by
  obtain ⟨b, lb, c2, hw, -, -, hcc⟩ := parse_one_type_shape (next_ok h)
  rcases hcc with hcc | hcc
  · rw [hcc] at hc; exact absurd hc (by simp)
  · rw [hcc] at hc
    simp only [Option.some.injEq] at hc
    subst hc; subst hw; simp; omega

/-- A successful `expect_any` is a successful iterator step. -/
theorem expect_any_ok {w : List Nat} {t : ASNType} {r : List Nat}
    (h : expect_any w = (.ok t, r)) :
    Parser.next w = some (.ok t, r) := by
  simp only [expect_any] at h
  split at h
  · rename_i t2 w2 hn
    cases h
    exact hn
  · exact absurd h (by simp)
  · exact absurd h (by simp)

/-- A successful `expect` is a successful iterator step whose value
projects to the requested wrapper type. -/
theorem expectWith_ok {α : Type} {tid : ASNTypeId} {proj : ASNType → Option α}
    {w : List Nat} {v : α} {r : List Nat}
    (h : expectWith tid proj w = (.ok v, r)) :
    ∃ t, Parser.next w = some (.ok t, r) ∧ proj t = some v := by
  simp only [expectWith] at h
  split at h
  · rename_i t2 w2 hea
    split at h
    · rename_i v2 hp
      cases h
      exact ⟨t2, expect_any_ok hea, hp⟩
    · exact absurd h (by simp)
  · exact absurd h (by simp)

/-- `expect_end` succeeds only on the empty window. -/
theorem expect_end_ok {w w2 : List Nat} {u : Unit}
    (h : expect_end w = (.ok u, w2)) : w = [] := by
  simp only [expect_end] at h
  rcases hn : Parser.next w with _ | ⟨res, w3⟩
  · exact next_none_iff.1 hn
  · rw [hn] at h
    cases res <;> simp at h

/-- A successful `Parser::parse_all` runs `f` to success and leaves an
empty reader. -/
theorem parse_all_ok {α : Type} {input : List Nat}
    {f : List Nat → PResult α} {v : α}
    (h : Parser.parse_all input f = .ok v) :
    f input = (.ok v, []) := by
  simp only [Parser.parse_all] at h
  split at h
  · exact absurd h (by simp)
  · rename_i v2 w hf
    split at h
    · rename_i u w2 he
      cases h
      rw [hf, expect_end_ok he]
    · exact absurd h (by simp)

/-! ### Claim C2 — KeyUsage bit mapping -/

/-- C2: the claim states that `KeyUsage::parse` assigns the nine flags by
linear bit index (bit 0 → digitalSignature, bit 1 → contentCommitment, …).
It does not: the loop advances with `offset += offset`, so the offset
stays 0 forever and every bit is written into `digital_signature`. For
the BitString `03 02 00 40` (bits `01000000`) the linear rule demands
`content_commitment = true`; the code returns all flags false (the last
bit, 0, lands in `digital_signature`). For `03 02 00 01` (bits
`00000001`) the linear rule demands `encipher_only = true`; the code
returns `digital_signature = true` instead. -/
theorem keyUsage_parse_offset_bug :
    (ASNBitString.mk 0 [0x40]).bits =
      [false, true, false, false, false, false, false, false] ∧
    KeyUsage.parse [0x03, 0x02, 0x00, 0x40] = .ok KeyUsage.empty ∧
    (ASNBitString.mk 0 [0x01]).bits =
      [false, false, false, false, false, false, false, true] ∧
    KeyUsage.parse [0x03, 0x02, 0x00, 0x01] =
      .ok { KeyUsage.empty with digital_signature := true } := by
  refine ⟨by decide, by decide, by decide, by decide⟩

/-! ### Claim C3 — ASNInteger::as_i32 -/

/-- C3: the claim states that `as_i32` succeeds exactly for content
lengths in [1,4] and returns the two's-complement value (so `FF` ↦ −1).
The code's guard is the half-open range `1usize..4usize`, which excludes
length 4, and the accumulator zero-extends: the single byte `FF` yields
255 (not −1) and the 4-byte content `01 02 03 04` yields `none` (though
the source's own comment says "length in [1,4] bytes"). -/
theorem asI32_code_bug :
    (ASNInteger.mk [0xFF]).as_i32 = some 255 ∧
    (ASNInteger.mk [0x01, 0x02, 0x03, 0x04]).as_i32 = none ∧
    (ASNInteger.mk [0x00, 0x80]).as_i32 = some 128 ∧
    (ASNInteger.mk [0x01, 0x02, 0x03]).as_i32 = some 0x010203 := by
  refine ⟨by decide, by decide, by decide, by decide⟩

/-! ### Claim C4 — tag 31 identifiers -/

/-- C4 counterexample: the claim states that every identifier octet with
low five bits `0b11111` fails with `UnsupportedId` regardless of class
and P/C bit. The octet `0xBF` (ContextSpecific, Constructed, tag 31)
instead decodes successfully to an `ExplicitTag` value. -/
theorem tag31_counterexample :
    (Identifier.fromByte 0xBF).tag = 31 ∧
    parse_one_type [0xBF, 0x00] =
      .ok (.ExplicitTag ⟨31, []⟩, []) := by
  refine ⟨by decide, by decide⟩

set_option maxRecDepth 4096 in
/-- C4 amended: an identifier octet with low five bits `0b11111` is
rejected with `UnsupportedId` — except when its class is ContextSpecific
and it is Constructed, in which case it is classified as an ExplicitTag
with tag number 31. -/
theorem tag31_amended :
    (∀ b : Nat, b < 256 → (Identifier.fromByte b).tag = 31 →
      (((Identifier.fromByte b).cls = .ContextSpecific ∧
          (Identifier.fromByte b).pc = .Constructed) →
        read_type (Identifier.fromByte b) = some .ExplicitTag) ∧
      (¬((Identifier.fromByte b).cls = .ContextSpecific ∧
          (Identifier.fromByte b).pc = .Constructed) →
        read_type (Identifier.fromByte b) = none)) ∧
    (∀ (b : Nat) (rest : List Nat),
      read_type (Identifier.fromByte b) = none →
      parse_one_type (b :: rest) =
        .error (.UnsupportedId (Identifier.fromByte b))) := by
  constructor
  · decide
  · intro b rest h
    simp [parse_one_type, h]

/-- Witness for `tag31_amended` at the concrete octet `0x1F`
(Universal, Primitive, tag 31). -/
theorem tag31_amended_witness :
    read_type (Identifier.fromByte 0x1F) = none ∧
    parse_one_type [0x1F, 0x00] =
      .error (.UnsupportedId (Identifier.fromByte 0x1F)) :=
  ⟨(tag31_amended.1 0x1F (by decide) (by decide)).2 (by decide),
    tag31_amended.2 0x1F [0x00]
      ((tag31_amended.1 0x1F (by decide) (by decide)).2 (by decide))⟩

/-! ### Claim C5 — length minimality -/

/-- C5 counterexample: the claim states that long-form length encodings
with leading `0x00` padding bytes are rejected; `82 00 80` instead
decodes to length 128. -/
theorem length_zero_padding_counterexample :
    parse_length [0x82, 0x00, 0x80] = .ok (128, []) := by decide

/-- C5 amended: for a long-form length encoding with 1 ≤ n ≤ 4 length
bytes decoding to value `v`, the decoder rejects `v = 0`
(`UnsupportedIndefiniteLength`) and `v < 128` (`BadLengthEncoding v`),
and accepts every `v ≥ 128` — leading `0x00` padding bytes are not
detected. -/
theorem parse_length_long_form :
    ∀ (c : Nat) (bs : List Nat) (v : Nat) (rest : List Nat),
      1 ≤ c → c ≤ 4 →
      readBE c bs 0 = .ok (v, rest) →
      parse_length ((0x80 + c) :: bs) =
        (if v = 0 then .error .UnsupportedIndefiniteLength
         else if v < 128 then .error (.BadLengthEncoding v)
         else .ok (v, rest)) := by
  intro c bs v rest h1 h4 hbe
  interval_cases c <;>
    simp [parse_length, hbe,
      (by decide : ((129 : Nat) &&& 128) = 128),
      (by decide : ((129 : Nat) &&& 127) = 1),
      (by decide : ((130 : Nat) &&& 128) = 128),
      (by decide : ((130 : Nat) &&& 127) = 2),
      (by decide : ((131 : Nat) &&& 128) = 128),
      (by decide : ((131 : Nat) &&& 127) = 3),
      (by decide : ((132 : Nat) &&& 128) = 128),
      (by decide : ((132 : Nat) &&& 127) = 4)]

/-- Witness for `parse_length_long_form`: `81 7F` is rejected with
`BadLengthEncoding 127` (127 fits in the short form). -/
theorem parse_length_long_form_witness :
    parse_length [0x81, 0x7F] = .error (.BadLengthEncoding 127) := by
  have h := parse_length_long_form 1 [0x7F] 127 [] (by decide) (by decide)
    (by decide)
  simpa using h

/-! ### Claim C6 — BitString contents validation -/

/-- C6 counterexample: the claim states that contents whose unused-bit
count is positive while the octet slice is empty are rejected; the
contents `[0x01]` (unused-bit count 1, no octets) are instead accepted. -/
theorem bit_string_empty_octets_counterexample :
    parse_bit_string [0x01] = .ok (.BitString ⟨1, []⟩) := by decide

/-- C6 amended: `parse_bit_string` accepts exactly the non-empty contents
whose first byte (the unused-bit count) is at most 7; the remaining
octets — possibly none, even when the unused-bit count is positive —
become the payload. (Empty contents fail with `EndOfStream`, an
unused-bit count above 7 fails with `BitStringUnusedBitsTooLarge`.) -/
theorem parse_bit_string_characterization :
    ∀ (contents : List Nat) (t : ASNType),
      parse_bit_string contents = .ok t ↔
        ∃ b rest, contents = b :: rest ∧ b ≤ 7 ∧
          t = .BitString ⟨b, rest⟩ := by
  intro contents t
  cases contents with
  | nil => simp [parse_bit_string]
  | cons b rest =>
    simp only [parse_bit_string]
    by_cases hb : b > 7
    · simp only [hb, if_pos]
      constructor
      · intro h; exact absurd h (by simp)
      · rintro ⟨b2, rest2, heq, hle, -⟩
        cases heq
        omega
    · simp only [hb, if_neg]
      constructor
      · intro h
        cases h
        exact ⟨b, rest, rfl, by omega, rfl⟩
      · rintro ⟨b2, rest2, heq, -, ht⟩
        cases heq
        simp [ht]

/-! ### Claim C8 — panic-freedom of BitString operations -/

/-- C8: the claim states that `ASNBitString::size` never underflows and
the bit iterator never reads out of bounds for decoder-produced values.
The decoder accepts the contents `[0x05]`, producing a BitString with
`unused_bits = 5` and an empty octet slice; `size` then computes
`0 * 8 - 5`, which underflows `usize` (a panic in debug builds; in
release it wraps to `2^64 - 5`, so the iterator's first step indexes
byte 0 of the empty slice — an out-of-bounds panic). -/
theorem bit_string_size_underflow :
    parse_bit_string [0x05] = .ok (.BitString ⟨5, []⟩) ∧
    (ASNBitString.mk 5 []).bytes.length * 8 < (ASNBitString.mk 5 []).unused_bits ∧
    (ASNBitString.mk 5 []).size = 2 ^ 64 - 5 ∧
    (ASNBitString.mk 5 []).bytes.length = 0 ∧
    0 < (ASNBitString.mk 5 []).size := by
  refine ⟨by decide, by decide, by decide, by decide, by decide⟩

/-! ### Claim C7 — lookahead purity -/

/-- On a non-empty window, `expect` always consumes input — it advances
past the TLV on success and on a wrong type, and clears the reader on a
decode error. -/
theorem expectWith_consumes {α : Type} (tid : ASNTypeId)
    (proj : ASNType → Option α) {w : List Nat} (hw : w ≠ []) :
    ((expectWith tid proj w).2).length < w.length := by
  rcases hn : Parser.next w with _ | ⟨res, w2⟩
  · exact absurd (next_none_iff.1 hn) hw
  · have hlt := next_consumes hn
    simp only [expectWith, expect_any, hn]
    cases res with
    | error e => exact hlt
    | ok t =>
      rcases hp : proj t with _ | v <;> simp only [hp] <;> exact hlt

/-- C7: lookahead purity of the optional getters. If `get_optional` (or
`get_optional_explicit_tag`) answers `Ok(None)`, the reader window is
unchanged byte for byte; and whenever the peeked identifier matches the
requested kind (respectively an explicit tag with the requested number),
the item is consumed — the window strictly shrinks — whether or not its
body decoded successfully, and the answer is never `Ok(None)`. -/
theorem lookahead_purity :
    (∀ (α : Type) (tid : ASNTypeId) (proj : ASNType → Option α)
        (w w' : List Nat),
      getOptionalWith tid proj w = (.ok none, w') → w' = w) ∧
    (∀ (tag : Nat) (w w' : List Nat),
      get_optional_explicit_tag tag w = (.ok none, w') → w' = w) ∧
    (∀ (α : Type) (tid : ASNTypeId) (proj : ASNType → Option α)
        (b : Nat) (rest : List Nat),
      read_type (Identifier.fromByte b) = some tid →
      (getOptionalWith tid proj (b :: rest)).1 ≠ .ok none ∧
      ((getOptionalWith tid proj (b :: rest)).2).length <
        (b :: rest).length) ∧
    (∀ (tag : Nat) (b : Nat) (rest : List Nat),
      read_type (Identifier.fromByte b) = some .ExplicitTag →
      (Identifier.fromByte b).tag = tag →
      (get_optional_explicit_tag tag (b :: rest)).1 ≠ .ok none ∧
      ((get_optional_explicit_tag tag (b :: rest)).2).length <
        (b :: rest).length) := by
  refine ⟨?_, ?_, ?_, ?_⟩
  · intro α tid proj w w' h
    cases w with
    | nil =>
      simp only [getOptionalWith, Prod.mk.injEq] at h
      exact h.2.symm
    | cons b rest =>
      simp only [getOptionalWith] at h
      split at h
      · split at h
        · split at h <;> exact absurd h (by simp)
        · cases h; rfl
      · exact absurd h (by simp)
  · intro tag w w' h
    cases w with
    | nil =>
      simp only [get_optional_explicit_tag, Prod.mk.injEq] at h
      exact h.2.symm
    | cons b rest =>
      simp only [get_optional_explicit_tag] at h
      split at h
      · split at h
        · split at h <;> exact absurd h (by simp)
        · cases h; rfl
      · exact absurd h (by simp)
  · intro α tid proj b rest hrt
    have hc := expectWith_consumes (α := α) tid proj
      (w := b :: rest) (by simp)
    simp only [getOptionalWith, hrt, if_pos rfl]
    rcases he : expectWith tid proj (b :: rest) with ⟨rv, w2⟩
    rw [he] at hc
    cases rv with
    | error e => exact ⟨by simp, hc⟩
    | ok v => exact ⟨by simp, hc⟩
  · intro tag b rest hrt htag
    have hc := expectWith_consumes (α := ASNExplicitTag) .ExplicitTag
      (fun t => match t with | .ExplicitTag v => some v | _ => none)
      (w := b :: rest) (by simp)
    simp only [get_optional_explicit_tag, hrt, htag, and_self, if_pos]
    rcases he : expectWith .ExplicitTag
      (fun t => match t with | .ExplicitTag v => some v | _ => none)
      (b :: rest) with ⟨rv, w2⟩
    rw [he] at hc
    cases rv with
    | error e => exact ⟨by simp, hc⟩
    | ok v => exact ⟨by simp, hc⟩

/-- Witness for `lookahead_purity`: peeking an Integer at a NULL TLV
(`05 00`) answers `Ok(None)` and leaves the window untouched; peeking an
Integer at a malformed Integer TLV (`02 00`, zero-length contents) does
not answer `Ok(None)` and consumes the window. -/
theorem lookahead_purity_witness :
    (([0x05, 0x00] : List Nat) = [0x05, 0x00]) ∧
    (getOptionalWith .Integer projInteger [0x02, 0x00]).1 ≠ .ok none ∧
    ((getOptionalWith .Integer projInteger [0x02, 0x00]).2).length < 2 :=
  ⟨lookahead_purity.1 ASNInteger .Integer projInteger
      [0x05, 0x00] [0x05, 0x00] (by decide),
    (lookahead_purity.2.2.1 ASNInteger .Integer projInteger
      0x02 [0x00] (by decide)).1,
    (lookahead_purity.2.2.1 ASNInteger .Integer projInteger
      0x02 [0x00] (by decide)).2⟩

/-! ### Claim C10 — DN attribute uniqueness -/

/-- A successful `fill_name_component` requires the slot to be empty and
stores the value's string payload. -/
theorem fill_name_component_ok {value : ASNType} {comp : Option (List Nat)}
    {oid : ASNObjectIdentifier} {c : Option (List Nat)}
    (h : fill_name_component value comp oid = .ok c) :
    comp = none ∧ ∃ s, strValue value = some s ∧ c = some s := by
  simp only [fill_name_component] at h
  split at h
  · exact absurd h (by simp)
  · rename_i s hs
    split at h
    · exact absurd h (by simp)
    · cases h
      exact ⟨rfl, s, hs, rfl⟩

/-- A successful mapped `fill_name_component`. -/
theorem fill_map_ok {value : ASNType} {comp : Option (List Nat)}
    {oid : ASNObjectIdentifier}
    {f : Option (List Nat) → RelativeDistinguishedName}
    {st' : RelativeDistinguishedName}
    (h : (fill_name_component value comp oid).map f = .ok st') :
    comp = none ∧ ∃ s, strValue value = some s ∧ st' = f (some s) := by
  rcases hm : fill_name_component value comp oid with e | c <;> rw [hm] at h
  · exact absurd h (by simp [Except.map])
  · obtain ⟨hnone, s, hs, hc⟩ := fill_name_component_ok hm
    simp only [Except.map, Except.ok.injEq] at h
    exact ⟨hnone, s, hs, by rw [← h, hc]⟩

/-- `recognizedOid` answers `some` exactly on the six literal arc
lists. -/
theorem recognizedOid_eq {l : List Nat} {slot : RdnSlot}
    (h : recognizedOid l = some slot) :
    (slot = .commonName ∧ l = [2, 5, 4, 3]) ∨
    (slot = .countryName ∧ l = [2, 5, 4, 6]) ∨
    (slot = .localityName ∧ l = [2, 5, 4, 7]) ∨
    (slot = .stateOrProvince ∧ l = [2, 5, 4, 8]) ∨
    (slot = .organization ∧ l = [2, 5, 4, 10]) ∨
    (slot = .organizationalUnit ∧ l = [2, 5, 4, 11]) := by
  unfold recognizedOid at h
  split at h <;> simp_all

/-- If the dispatch succeeds, it never overwrites a filled slot. -/
theorem rdn_dispatch_mono {st : RelativeDistinguishedName}
    {oid : ASNObjectIdentifier} {value : ASNType}
    {st' : RelativeDistinguishedName}
    (h : rdn_dispatch st oid value = .ok st') (slot : RdnSlot) :
    (st.get slot).isSome → st'.get slot = st.get slot := by
  intro hsome
  unfold rdn_dispatch at h
  split at h <;>
    first
      | (cases h; rfl)
      | (obtain ⟨hnone, s, hs, hst⟩ := fill_map_ok h
         subst hst
         cases slot <;> simp_all [RelativeDistinguishedName.get])

/-- A recognized OID whose slot is already filled makes the dispatch
fail with `UnexpectedOid` (provided the value is a string kind, which is
checked first). -/
theorem rdn_dispatch_duplicate {st : RelativeDistinguishedName}
    {oid : ASNObjectIdentifier} {value : ASNType} {slot : RdnSlot}
    (hstr : (strValue value).isSome)
    (hrec : recognizedOid oid.values = some slot)
    (hfill : (st.get slot).isSome) :
    rdn_dispatch st oid value = .error (.UnexpectedOid oid) := by
  obtain ⟨s, hs⟩ := Option.isSome_iff_exists.1 hstr
  rcases recognizedOid_eq hrec with ⟨hsl, hl⟩ | ⟨hsl, hl⟩ | ⟨hsl, hl⟩ |
    ⟨hsl, hl⟩ | ⟨hsl, hl⟩ | ⟨hsl, hl⟩ <;>
  · subst hsl
    obtain ⟨v, hv⟩ := Option.isSome_iff_exists.1 hfill
    unfold rdn_dispatch
    rw [hl]
    simp_all [fill_name_component, RelativeDistinguishedName.get, Except.map]

/-- An unrecognized OID leaves the record untouched. -/
theorem rdn_dispatch_unknown {st : RelativeDistinguishedName}
    {oid : ASNObjectIdentifier} {value : ASNType}
    (hrec : recognizedOid oid.values = none) :
    rdn_dispatch st oid value = .ok st := by
  unfold rdn_dispatch
  split
  all_goals
    first
    | rfl
    | (rename_i heq; rw [heq] at hrec; simp [recognizedOid] at hrec)

/-- A successful `parse_single` decomposes into its three steps. -/
theorem parse_single_ok_shape {st : RelativeDistinguishedName}
    {input : List Nat} {st' : RelativeDistinguishedName}
    (h : st.parse_single input = .ok st') :
    ∃ oid value w1,
      expectWith .ObjectIdentifier projObjectIdentifier input =
        (.ok oid, w1) ∧
      expect_any w1 = (.ok value, []) ∧
      rdn_dispatch st oid value = .ok st' := by
  have hf := parse_all_ok h
  rcases he1 : expectWith .ObjectIdentifier projObjectIdentifier input
    with ⟨r1, w1⟩
  rw [he1] at hf
  cases r1 with
  | error e => simp [pbind] at hf
  | ok oid =>
    simp only [pbind] at hf
    rcases he2 : expect_any w1 with ⟨r2, w2⟩
    rw [he2] at hf
    cases r2 with
    | error e => simp at hf
    | ok value =>
      simp only [plift, Prod.mk.injEq] at hf
      obtain ⟨hd, hw2⟩ := hf
      subst hw2
      exact ⟨oid, value, w1, rfl, he2, hd⟩

/-- Given the three steps, `parse_single` computes the dispatch. -/
theorem parse_single_eval {st : RelativeDistinguishedName}
    {input : List Nat} {oid : ASNObjectIdentifier} {value : ASNType}
    {w1 : List Nat}
    (h1 : expectWith .ObjectIdentifier projObjectIdentifier input =
      (.ok oid, w1))
    (h2 : expect_any w1 = (.ok value, [])) :
    st.parse_single input = rdn_dispatch st oid value := by
  unfold RelativeDistinguishedName.parse_single Parser.parse_all
  simp only [pbind, plift, h1, h2]
  rcases hd : rdn_dispatch st oid value with e | st2 <;>
    simp [hd, expect_end, Parser.next]

/-- C10: parsing a Name never produces two values for the same slot.
A successful `parse_single` never changes an already-filled slot; an
AttributeTypeAndValue whose recognized OID targets a filled slot (and
whose value is one of the accepted string kinds) fails with
`UnexpectedOid`; and an AttributeTypeAndValue with an unrecognized OID
is silently ignored — it returns the record unchanged and causes no
failure. -/
theorem rdn_attribute_uniqueness :
    (∀ (st : RelativeDistinguishedName) (input : List Nat)
        (st' : RelativeDistinguishedName) (slot : RdnSlot),
      st.parse_single input = .ok st' →
      (st.get slot).isSome → st'.get slot = st.get slot) ∧
    (∀ (st : RelativeDistinguishedName) (input : List Nat)
        (oid : ASNObjectIdentifier) (value : ASNType) (w1 : List Nat)
        (slot : RdnSlot),
      expectWith .ObjectIdentifier projObjectIdentifier input =
        (.ok oid, w1) →
      expect_any w1 = (.ok value, []) →
      (strValue value).isSome →
      recognizedOid oid.values = some slot →
      (st.get slot).isSome →
      st.parse_single input = .error (.UnexpectedOid oid)) ∧
    (∀ (st : RelativeDistinguishedName) (input : List Nat)
        (oid : ASNObjectIdentifier) (value : ASNType) (w1 : List Nat),
      expectWith .ObjectIdentifier projObjectIdentifier input =
        (.ok oid, w1) →
      expect_any w1 = (.ok value, []) →
      recognizedOid oid.values = none →
      st.parse_single input = .ok st) := by
  refine ⟨?_, ?_, ?_⟩
  · intro st input st' slot h hsome
    obtain ⟨oid, value, w1, -, -, hd⟩ := parse_single_ok_shape h
    exact rdn_dispatch_mono hd slot hsome
  · intro st input oid value w1 slot h1 h2 hstr hrec hfill
    rw [parse_single_eval h1 h2]
    exact rdn_dispatch_duplicate hstr hrec hfill
  · intro st input oid value w1 h1 h2 hrec
    rw [parse_single_eval h1 h2]
    exact rdn_dispatch_unknown hrec

/-- Witness for `rdn_attribute_uniqueness`: with `commonName` already
filled, the AttributeTypeAndValue `06 03 55 04 03 13 01 41`
(OID 2.5.4.3, PrintableString "A") is rejected with `UnexpectedOid`;
with OID 2.5.4.12 (`06 03 55 04 0C`) it is silently ignored. -/
theorem rdn_attribute_uniqueness_witness :
    RelativeDistinguishedName.parse_single
        { RelativeDistinguishedName.empty with common_name := some [0x42] }
        [0x06, 0x03, 0x55, 0x04, 0x03, 0x13, 0x01, 0x41] =
      .error (.UnexpectedOid ⟨[2, 5, 4, 3]⟩) ∧
    RelativeDistinguishedName.parse_single RelativeDistinguishedName.empty
        [0x06, 0x03, 0x55, 0x04, 0x0C, 0x13, 0x01, 0x41] =
      .ok RelativeDistinguishedName.empty :=
  ⟨rdn_attribute_uniqueness.2.1
      { RelativeDistinguishedName.empty with common_name := some [0x42] }
      [0x06, 0x03, 0x55, 0x04, 0x03, 0x13, 0x01, 0x41]
      ⟨[2, 5, 4, 3]⟩ (.PrintableString [0x41]) [0x13, 0x01, 0x41]
      .commonName (by decide) (by decide) (by decide) (by decide) (by decide),
    rdn_attribute_uniqueness.2.2 RelativeDistinguishedName.empty
      [0x06, 0x03, 0x55, 0x04, 0x0C, 0x13, 0x01, 0x41]
      ⟨[2, 5, 4, 12]⟩ (.PrintableString [0x41]) [0x13, 0x01, 0x41]
      (by decide) (by decide) (by decide)⟩

/-! ### Claim C9 — the generic tree walker -/

/-- `walkFuel` is independent of the fuel once it covers the window
length. -/
theorem walkFuel_congr :
    ∀ (n : Nat) (w : List Nat) (f g : Nat),
      w.length ≤ n → w.length ≤ f → w.length ≤ g →
      walkFuel f w = walkFuel g w := by
  intro n
  induction n using Nat.strong_induction_on with
  | _ n ih =>
    intro w f g hn hf hg
    match f, g with
    | 0, 0 => rfl
    | 0, g + 1 =>
      have hw : w = [] := List.length_eq_zero.1 (Nat.le_zero.1 hf)
      subst hw
      simp [walkFuel, Parser.next]
    | f + 1, 0 =>
      have hw : w = [] := List.length_eq_zero.1 (Nat.le_zero.1 hg)
      subst hw
      simp [walkFuel, Parser.next]
    | f + 1, g + 1 =>
      rcases hnx : Parser.next w with _ | ⟨res, w'⟩
      · simp only [walkFuel, hnx]
      · cases res with
        | error e => simp only [walkFuel, hnx]
        | ok t =>
          have hw' : w'.length < w.length := next_consumes hnx
          have hrec : walkFuel f w' = walkFuel g w' :=
            ih w'.length (by omega) w' f g le_rfl (by omega) (by omega)
          rcases hc : constructedContents t with _ | c
          · simp only [walkFuel, hnx, hc, hrec]
          · have hc' : c.length < w.length := next_contents_lt hnx hc
            have hrecc : walkFuel f c = walkFuel g c :=
              ih c.length (by omega) c f g le_rfl (by omega) (by omega)
            simp only [walkFuel, hnx, hc, hrecc, hrec]

/-- `walkFuel` with sufficient fuel computes `walk`. -/
theorem walkFuel_stable {f : Nat} {w : List Nat} (hf : w.length ≤ f) :
    walkFuel f w = walk w :=
  walkFuel_congr w.length w f w.length le_rfl hf le_rfl

/-- `tokensFuel` is independent of the fuel once it covers the window
length. -/
theorem tokensFuel_congr :
    ∀ (n : Nat) (w : List Nat) (f g : Nat),
      w.length ≤ n → w.length ≤ f → w.length ≤ g →
      tokensFuel f w = tokensFuel g w := by
  intro n
  induction n using Nat.strong_induction_on with
  | _ n ih =>
    intro w f g hn hf hg
    match f, g with
    | 0, 0 => rfl
    | 0, g + 1 =>
      have hw : w = [] := List.length_eq_zero.1 (Nat.le_zero.1 hf)
      subst hw
      simp [tokensFuel, Parser.next]
    | f + 1, 0 =>
      have hw : w = [] := List.length_eq_zero.1 (Nat.le_zero.1 hg)
      subst hw
      simp [tokensFuel, Parser.next]
    | f + 1, g + 1 =>
      rcases hnx : Parser.next w with _ | ⟨res, w'⟩
      · simp only [tokensFuel, hnx]
      · have hw' : w'.length < w.length := next_consumes hnx
        have hrec : tokensFuel f w' = tokensFuel g w' :=
          ih w'.length (by omega) w' f g le_rfl (by omega) (by omega)
        simp only [tokensFuel, hnx, hrec]

/-- `tokensFuel` with sufficient fuel computes `tokens`. -/
theorem tokensFuel_stable {f : Nat} {w : List Nat} (hf : w.length ≤ f) :
    tokensFuel f w = tokens w :=
  tokensFuel_congr w.length w f w.length le_rfl hf le_rfl

/-- C9: the generic tree walker follows the per-token block discipline —
over any input window, its event trace and returned error equal the
concatenation, over the top-level TLV stream, of: `on_type` for each
decoded TLV; for the three constructed kinds (Sequence, Set,
ExplicitTag) additionally `begin_constructed`, the recursive walk of the
payload window, and `end_constructed`; with an `on_error` and early stop
at the first decode error (see `blocksOf`). -/
theorem walk_blocks : ∀ w : List Nat, walk w = blocksOf (tokens w) := by
  have H : ∀ (n : Nat) (w : List Nat), w.length ≤ n →
      walk w = blocksOf (tokens w) := by
    intro n
    induction n using Nat.strong_induction_on with
    | _ n ih =>
      intro w hn
      unfold walk tokens
      cases w with
      | nil => simp [walkFuel, tokensFuel, blocksOf]
      | cons b rest =>
        rcases hnx : Parser.next (b :: rest) with _ | ⟨res, w'⟩
        · simp [walkFuel, tokensFuel, hnx, blocksOf]
        · cases res with
          | error e =>
            simp only [List.length_cons, walkFuel, tokensFuel, hnx, blocksOf]
          | ok t =>
            have hw' : w'.length < (b :: rest).length := next_consumes hnx
            have hwst : walkFuel rest.length w' = walk w' :=
              walkFuel_stable (by simp at hw' ⊢; omega)
            have htst : tokensFuel rest.length w' = tokens w' :=
              tokensFuel_stable (by simp at hw' ⊢; omega)
            have hIH : walk w' = blocksOf (tokens w') :=
              ih w'.length (by simp at hw' hn ⊢; omega) w' le_rfl
            rcases hc : constructedContents t with _ | c
            · simp only [List.length_cons, walkFuel, tokensFuel, hnx, hc,
                blocksOf, hwst, htst, hIH]
            · have hc' : c.length < (b :: rest).length :=
                next_contents_lt hnx hc
              have hcst : walkFuel rest.length c = walk c :=
                walkFuel_stable (by simp at hc' ⊢; omega)
              rcases hwc : walk c with ⟨evs, err⟩
              cases err with
              | some e =>
                simp only [List.length_cons, walkFuel, tokensFuel, hnx, hc,
                  hcst, hwc, blocksOf, htst]
              | none =>
                simp only [List.length_cons, walkFuel, tokensFuel, hnx, hc,
                  hcst, hwc, blocksOf, htst, hwst, hIH]
  intro w
  exact H w.length w le_rfl

/-! ### Claim C1 — raw preservation of the TBSCertificate bytes -/

set_option maxRecDepth 4096 in
/-- The only byte classifying as a SEQUENCE is `0x30`. -/
theorem read_type_sequence_byte :
    ∀ b : Nat, b < 256 →
      read_type (Identifier.fromByte b) = some .Sequence → b = 0x30 := by
  decide

/-- Shape of a successful `expect::<Sequence>`: the window is the `0x30`
identifier octet, the length bytes (decoding to the contents length),
the contents, and the remainder. -/
theorem expectSequence_shape {w c r : List Nat}
    (hb : ∀ x ∈ w, x < 256)
    (h : expectWith .Sequence projSequence w = (.ok c, r)) :
    ∃ lb, w = 0x30 :: (lb ++ (c ++ r)) ∧
      parse_length (lb ++ (c ++ r)) = .ok (c.length, c ++ r) := by
  obtain ⟨t, hn, hp⟩ := expectWith_ok h
  have ht : t = .Sequence c := by
    cases t <;> simp_all [projSequence]
  subst ht
  obtain ⟨b, lb, c2, hw, hrt, hpl, hcc⟩ := parse_one_type_shape (next_ok hn)
  have hc2 : c = c2 := by
    rcases hcc with hcc | hcc <;> simp [constructedContents] at hcc
    exact hcc
  subst hc2
  have hb0 : b < 256 := hb b (by rw [hw]; exact List.mem_cons_self b _)
  have hb30 : b = 0x30 := read_type_sequence_byte b hb0 hrt
  subst hb30
  exact ⟨lb, hw, hpl⟩

set_option maxHeartbeats 1000000 in
/-- C1: raw preservation. If `Certificate::parse` succeeds on input `I`,
then `I` contains a contiguous slice equal to
`certificate.tbs_certificate.bytes`, and that slice sits immediately
after the TBSCertificate SEQUENCE's tag byte (`0x30`) and length bytes
(which decode to exactly the slice's length) inside the outer
certificate SEQUENCE — i.e. it is the contents of the TBSCertificate
SEQUENCE, excluding its tag and length header. -/
theorem certificate_parse_raw_preservation (I : List Nat)
    (cert : Certificate) (hb : ∀ b ∈ I, b < 256)
    (h : Certificate.parse I = .ok cert) :
    (∃ pre post, I = pre ++ cert.tbs_certificate.bytes ++ post) ∧
    ∃ lb1 lb2 rest,
      I = 0x30 ::
        (lb1 ++ (0x30 :: (lb2 ++ (cert.tbs_certificate.bytes ++ rest)))) ∧
      parse_length (lb2 ++ (cert.tbs_certificate.bytes ++ rest)) =
        .ok (cert.tbs_certificate.bytes.length,
          cert.tbs_certificate.bytes ++ rest) := by
  have hf := parse_all_ok h
  rcases he1 : expectWith .Sequence projSequence I with ⟨r1, w1⟩
  rw [he1] at hf
  cases r1 with
  | error e => simp [pbind] at hf
  | ok certContents =>
    simp only [pbind, Prod.mk.injEq] at hf
    obtain ⟨hinner, hw1⟩ := hf
    subst hw1
    have hg := parse_all_ok hinner
    rcases he2 : expectWith .Sequence projSequence certContents with ⟨r2, w2⟩
    rw [he2] at hg
    cases r2 with
    | error e => simp [pbind] at hg
    | ok tbsBytes =>
      simp only [pbind] at hg
      rcases ht : TBSCertificate.parse tbsBytes with e | tbs
      · rw [ht] at hg; simp [plift, pbind] at hg
      · rw [ht] at hg
        simp only [plift, pbind] at hg
        have htbs_bytes : tbs.bytes = tbsBytes := by
          unfold TBSCertificate.parse at ht
          rcases hpa : Parser.parse_all tbsBytes parse_tbs_cert with e | v <;>
            rw [hpa] at ht
          · exact absurd ht (by simp)
          · simp only [Except.ok.injEq] at ht
            rw [← ht]
        rcases he3 : expectWith .Sequence projSequence w2 with ⟨r3, w3⟩
        rw [he3] at hg
        cases r3 with
        | error e => simp [pbind] at hg
        | ok algBytes =>
          simp only [pbind] at hg
          rcases ha : AlgorithmIdentifier.parse algBytes with e | alg <;>
            rw [ha] at hg
          · simp [plift, pbind] at hg
          · simp only [plift, pbind] at hg
            rcases he4 : expectWith .BitString projBitString w3 with ⟨r4, w4⟩
            rw [he4] at hg
            cases r4 with
            | error e => simp [pbind] at hg
            | ok sig =>
              simp only [pbind, Prod.mk.injEq] at hg
              obtain ⟨hcert, -⟩ := hg
              have hcert2 : cert =
                  { tbs_certificate := tbs, signature_algorithm := alg,
                    signature_value := sig } := by
                simp only [Except.ok.injEq] at hcert
                exact hcert.symm
              obtain ⟨lb1, hI, -⟩ := expectSequence_shape hb he1
              have hbc : ∀ x ∈ certContents, x < 256 := by
                intro x hx
                exact hb x (by rw [hI]; simp [hx])
              obtain ⟨lb2, hC, hpl2⟩ := expectSequence_shape hbc he2
              rw [hcert2]
              simp only []
              rw [htbs_bytes]
              constructor
              · exact ⟨0x30 :: lb1 ++ 0x30 :: lb2, w2,
                  by rw [hI, hC]; simp⟩
              · exact ⟨lb1, lb2, w2, by rw [hI, hC]; simp, hpl2⟩

/-- Witness for `certificate_parse_raw_preservation` on the concrete
certificate `x509CertExample`. -/
theorem certificate_parse_raw_preservation_witness :
    ∃ cert, Certificate.parse x509CertExample = .ok cert ∧
      ((∃ pre post, x509CertExample =
          pre ++ cert.tbs_certificate.bytes ++ post) ∧
        ∃ lb1 lb2 rest,
          x509CertExample = 0x30 ::
            (lb1 ++ (0x30 ::
              (lb2 ++ (cert.tbs_certificate.bytes ++ rest)))) ∧
          parse_length (lb2 ++ (cert.tbs_certificate.bytes ++ rest)) =
            .ok (cert.tbs_certificate.bytes.length,
              cert.tbs_certificate.bytes ++ rest)) :=
  ⟨_, rfl,
    certificate_parse_raw_preservation x509CertExample _ (by decide) rfl⟩

end Rasn
